import Mathlib

/-!
Verification of the expense-tracker single-page app (src/app/page.tsx).

The ledger, its three capture adapters (manual form, spreadsheet upload,
receipt image) and the derived-view layer are embedded shallowly:

* JS numbers are idealised as exact rationals (`ℚ`).  The one place where
  the float domain matters is `parseFloat`, whose NaN outcome is modelled
  as `none` (so that the code's `parseFloat(x) <= 0` test is `false` on a
  failed parse, exactly as `NaN <= 0` is `false` in JS).
* `Date.now()` and `new Date().toISOString()` are passed in as explicit
  `now : Nat` / `nowIso : String` parameters.
* Awaited network calls are passed in as values of `Fetch _`, with
  `Fetch.thrown` standing for a rejected promise (the `catch` branch).
* The untyped agent JSON is modelled with optional fields; a numeric JSON
  scalar is represented by its decimal string (`parseFloat` recovers it).
-/

namespace ExpenseTracker

/-- JS `x || d` for an optional string field: `undefined`/`null` and the
empty string are falsy. -/
def jsOrStr (o : Option String) (d : String) : String :=
  match o with
  | none => d
  | some s => if s = "" then d else s

/-- JS `x || d` for an optional numeric field: `undefined`/`null` and `0`
are falsy. -/
def jsOrQ (o : Option ℚ) (d : ℚ) : ℚ :=
  match o with
  | none => d
  | some v => if v = 0 then d else v

/-- Numeric value of a list of decimal digit characters, most significant
first. -/
def digitsVal (l : List Char) : Nat :=
  l.foldl (fun a c => a * 10 + (c.toNat - 48)) 0

/-- Modelled fragment of the JS builtin `parseFloat`: an optional sign,
integer digits, and an optional fraction after a dot; trailing garbage is
ignored, and `none` plays NaN (no numeric prefix at all).  Exponents,
`Infinity` and leading whitespace are outside the modelled fragment. -/
def parseFloat (s : String) : Option ℚ :=
  let cs := s.data
  let sign : ℚ := if cs.head? = some '-' then -1 else 1
  let cs1 : List Char :=
    if cs.head? = some '-' ∨ cs.head? = some '+' then cs.tail else cs
  let intDigits := cs1.takeWhile Char.isDigit
  let rest := cs1.dropWhile Char.isDigit
  let fracDigits : List Char :=
    if rest.head? = some '.' then rest.tail.takeWhile Char.isDigit else []
  if intDigits.isEmpty && fracDigits.isEmpty then none
  else some (sign * ((digitsVal intDigits : ℚ) +
    (digitsVal fracDigits : ℚ) / (10 : ℚ) ^ fracDigits.length))

/-- JS `parseFloat(x) <= 0` on the raw field: `false` when the parse
yields NaN, since every comparison with NaN is `false`. -/
def jsLeZero (o : Option ℚ) : Bool :=
  match o with
  | none => false
  | some v => decide (v ≤ 0)

/-- JS `parseFloat(x) || 0` on an optional raw field: a missing field or a
failed parse falls back to `0` (and a parsed `0` stays `0`). -/
def parseOr0 (o : Option String) : ℚ :=
  match o with
  | none => 0
  | some s => (parseFloat s).getD 0

/-- `10 ^ (number of decimal digits of n)`, used to reason about the
decimal printing of `Nat`. -/
def tenPow (n : Nat) : Nat :=
  if n < 10 then 10 else tenPow (n / 10) * 10
termination_by n
decreasing_by exact Nat.div_lt_self (by omega) (by omega)

/-- Origin of an expense record (`Expense.source` in page.tsx). -/
inductive Source where
  | manual
  | excel
  | image
deriving DecidableEq, Repr

/-- The `Expense` interface of page.tsx; amounts are idealised rationals. -/
structure Expense where
  id : String
  amount : ℚ
  category : String
  notes : String
  date : String
  source : Source
  confidence : Option ℚ := none
deriving DecidableEq, Repr

/-- Kind of a transient notification. -/
inductive NotifType where
  | success
  | error
  | info
deriving DecidableEq, Repr

/-- The `Notification` interface of page.tsx. -/
structure Notification where
  type : NotifType
  message : String
  id : String
deriving DecidableEq, Repr

/-- One candidate row of the spreadsheet preview: the untyped agent JSON
is modelled with optional string fields. -/
structure RawItem where
  amount : Option String := none
  category : Option String := none
  notes : Option String := none
  date : Option String := none
  status : Option String := none
deriving DecidableEq, Repr

/-- The optional per-field confidence object of an OCR reply. -/
structure RawConfidence where
  amount : Option ℚ := none
  category : Option ℚ := none
  overall : Option ℚ := none
deriving DecidableEq, Repr

/-- The fields of `result.response.result` that page.tsx ever reads.  An
`expenses`/`items` field that is present but not an array is modelled as
`none` (the code checks `Array.isArray`). -/
structure ResultData where
  expenses : Option (List RawItem) := none
  items : Option (List RawItem) := none
  amount : Option String := none
  total : Option String := none
  category : Option String := none
  notes : Option String := none
  description : Option String := none
  merchant : Option String := none
  confidence : Option RawConfidence := none
deriving DecidableEq, Repr

/-- A `callAIAgent` reply: `{ success, response: { status, message, result } }`. -/
structure AgentReply where
  success : Bool
  status : String
  message : Option String
  result : ResultData
deriving DecidableEq, Repr

/-- Result of awaiting a network call: a returned value, or a rejected
promise that lands in the `catch` branch. -/
inductive Fetch (α : Type) where
  | returned (val : α)
  | thrown
deriving DecidableEq, Repr

/-- An `uploadFiles` reply: `{ success, asset_ids }`. -/
structure UploadResult where
  success : Bool
  asset_ids : List String
deriving DecidableEq, Repr

/-- Per-field confidence of an extracted expense (always populated, the
defaults being 85/75/80). -/
structure Confidence where
  amount : ℚ
  category : ℚ
  overall : ℚ
deriving DecidableEq, Repr

/-- The `ExtractedExpense` interface of page.tsx. -/
structure ExtractedExpense where
  amount : String
  category : String
  notes : String
  confidence : Confidence
deriving DecidableEq, Repr

/-- The page state read or written by the ledger, the capture adapters and
the derived views.  Purely presentational state (loading spinners, file
handles, the image data-URL preview, the chat transcript) is omitted: no
claim depends on it. -/
structure AppState where
  expenses : List Expense
  notifications : List Notification
  manualAmount : String
  manualCategory : String
  manualNotes : String
  manualError : String
  excelPreview : List RawItem
  excelError : String
  extractedData : Option ExtractedExpense
  imageError : String
deriving DecidableEq, Repr

/-- `addNotification` (page.tsx 137-143): appends a notification whose id
is `Date.now()`; the 5-second self-expiry timer is outside this state
model. -/
def addNotification (s : AppState) (t : NotifType) (msg : String) (now : Nat) : AppState :=
  { s with notifications := s.notifications ++ [{ type := t, message := msg, id := toString now }] }

/-- The fallback preview row of `processExcelFile` (page.tsx 269-274).
The JS object stores the number `50.00`; numeric JSON scalars are
modelled by their decimal string. -/
def excelPlaceholder : RawItem :=
  { amount := some "50.00"
    category := some "Food & Dining"
    notes := some "Lunch meeting"
    status := some "valid" }

/-- `handleManualSubmit` (page.tsx 163-212).  `call` is the awaited
`callAIAgent` result; it is only consulted once validation has passed.
In the commit branch the code stores `parseFloat(manualAmount)`; when that
parse failed the JS value is NaN, which the rational idealisation cannot
represent, so the model stores `0` there — like NaN it is not a positive
amount, and every theorem about committed values assumes a successful
parse.  Success-notification text is abbreviated (the code interpolates an
`Intl` currency string). -/
def handleManualSubmit (s : AppState) (call : Fetch AgentReply) (now : Nat) (nowIso : String) :
    AppState :=
  let s0 := { s with manualError := "" }
  if (s.manualAmount == "") || jsLeZero (parseFloat s.manualAmount) then
    { s0 with manualError := "Please enter a valid amount greater than 0" }
  else if s.manualCategory == "" then
    { s0 with manualError := "Please select a category" }
  else
    match call with
    | .thrown =>
        addNotification { s0 with manualError := "An error occurred while adding expense" }
          .error "An error occurred" now
    | .returned r =>
        if r.success && (r.status == "success") then
          let newExpense : Expense :=
            { id := toString now
              amount := (parseFloat s.manualAmount).getD 0
              category := s.manualCategory
              notes := s.manualNotes
              date := nowIso
              source := .manual }
          addNotification
            { s0 with
                expenses := newExpense :: s0.expenses
                manualAmount := ""
                manualCategory := ""
                manualNotes := "" }
            .success "Expense added" now
        else
          addNotification
            { s0 with manualError := jsOrStr r.message "Failed to add expense" }
            .error "Failed to add expense" now

/-- `processExcelFile` (page.tsx 234-289): uploads the file, then asks the
agent for the parsed rows and builds the preview; the ledger is never
touched.  `up` is the awaited `uploadFiles` result and `call` the awaited
`callAIAgent` result (only reached when the upload succeeded); `thrown`
in either lands in the `catch` branch. -/
def processExcelFile (s : AppState) (up : Fetch UploadResult) (call : Fetch AgentReply)
    (now : Nat) : AppState :=
  let s0 := { s with excelError := "", excelPreview := [] }
  match up with
  | .thrown =>
      addNotification { s0 with excelError := "An error occurred while processing file" }
        .error "Processing error" now
  | .returned u =>
      if !u.success || u.asset_ids.isEmpty then
        addNotification { s0 with excelError := "Failed to upload file" }
          .error "File upload failed" now
      else
        match call with
        | .thrown =>
            addNotification { s0 with excelError := "An error occurred while processing file" }
              .error "Processing error" now
        | .returned r =>
            if r.success && (r.status == "success") then
              let previewData : List RawItem :=
                match r.result.expenses with
                | some l => l
                | none =>
                    match r.result.items with
                    | some l => l
                    | none => [excelPlaceholder]
              addNotification { s0 with excelPreview := previewData }
                .info "Found expense(s) in file" now
            else
              addNotification
                { s0 with excelError := jsOrStr r.message "Failed to process Excel file" }
                .error "Failed to process file" now

/-- One imported spreadsheet row (`handleExcelConfirm`, page.tsx 294-301). -/
def mkExcelExpense (now : Nat) (nowIso : String) (i : Nat) (it : RawItem) : Expense :=
  { id := toString now ++ "-" ++ toString i
    amount := parseOr0 it.amount
    category := jsOrStr it.category "Other"
    notes := jsOrStr it.notes ""
    date := jsOrStr it.date nowIso
    source := .excel }

/-- `handleExcelConfirm` (page.tsx 291-310): an empty preview is an early
return; otherwise every previewed row is committed at the head of the
ledger and the preview is reset. -/
def handleExcelConfirm (s : AppState) (now : Nat) (nowIso : String) : AppState :=
  if s.excelPreview.length = 0 then s
  else
    let newExpenses := s.excelPreview.enum.map (fun p => mkExcelExpense now nowIso p.1 p.2)
    addNotification { s with expenses := newExpenses ++ s.expenses, excelPreview := [] }
      .success "Imported expense(s) from Excel" now

/-- `processImage` (page.tsx 337-394): uploads the image, then asks the
agent for the OCR extraction; the ledger is never touched. -/
def processImage (s : AppState) (up : Fetch UploadResult) (call : Fetch AgentReply)
    (now : Nat) : AppState :=
  let s0 := { s with imageError := "", extractedData := none }
  match up with
  | .thrown =>
      addNotification { s0 with imageError := "An error occurred during image processing" }
        .error "Processing error" now
  | .returned u =>
      if !u.success || u.asset_ids.isEmpty then
        addNotification { s0 with imageError := "Failed to upload image" }
          .error "Image upload failed" now
      else
        match call with
        | .thrown =>
            addNotification { s0 with imageError := "An error occurred during image processing" }
              .error "Processing error" now
        | .returned r =>
            if r.success && (r.status == "success") then
              let d := r.result
              let extracted : ExtractedExpense :=
                { amount := jsOrStr d.amount (jsOrStr d.total "0.00")
                  category := jsOrStr d.category "Other"
                  notes := jsOrStr d.notes (jsOrStr d.description (jsOrStr d.merchant ""))
                  confidence :=
                    { amount := jsOrQ (d.confidence.bind (fun c => c.amount)) 85
                      category := jsOrQ (d.confidence.bind (fun c => c.category)) 75
                      overall := jsOrQ (d.confidence.bind (fun c => c.overall)) 80 } }
              addNotification { s0 with extractedData := some extracted }
                .success "Successfully extracted expense data from image" now
            else
              addNotification
                { s0 with imageError := jsOrStr r.message "Failed to extract data from image" }
                .error "OCR extraction failed" now

/-- `handleImageConfirm` (page.tsx 396-417): without an extraction it is an
early return; otherwise one record is committed at the head of the ledger
and the extraction state is reset. -/
def handleImageConfirm (s : AppState) (now : Nat) (nowIso : String) : AppState :=
  match s.extractedData with
  | none => s
  | some ex =>
      let newExpense : Expense :=
        { id := toString now
          amount := (parseFloat ex.amount).getD 0
          category := ex.category
          notes := ex.notes
          date := nowIso
          source := .image
          confidence := some ex.confidence.overall }
      addNotification { s with expenses := newExpense :: s.expenses, extractedData := none }
        .success "Added expense from image" now

/-- The delete button (page.tsx 1047):
`setExpenses(prev => prev.filter(e => e.id !== expense.id))`. -/
def deleteExpense (l : List Expense) (targetId : String) : List Expense :=
  l.filter (fun e => e.id != targetId)

/-- The filter predicate of `filteredExpenses` (page.tsx 485-490):
case-insensitive substring match of the query against notes or category,
and an exact category filter where `"all"` matches everything. -/
def matchesFilter (searchQuery filterCategory : String) (e : Expense) : Bool :=
  (decide (searchQuery.toLower.data <:+: e.notes.toLower.data) ||
    decide (searchQuery.toLower.data <:+: e.category.toLower.data)) &&
  ((filterCategory == "all") || (e.category == filterCategory))

/-- The match condition exactly as the specification words it, for
comparison with the code's `matchesFilter`. -/
def SpecMatches (searchQuery filterCategory : String) (e : Expense) : Prop :=
  (searchQuery.toLower.data <:+: e.notes.toLower.data ∨
    searchQuery.toLower.data <:+: e.category.toLower.data) ∧
  (filterCategory = "all" ∨ e.category = filterCategory)

/-- `filteredExpenses` (page.tsx 485-490). -/
def filteredExpenses (es : List Expense) (q fc : String) : List Expense :=
  es.filter (matchesFilter q fc)

/-- `totalExpenses` (page.tsx 493): a `reduce` over the filtered list. -/
def totalExpenses (es : List Expense) (q fc : String) : ℚ :=
  (filteredExpenses es q fc).foldl (fun sum e => sum + e.amount) 0

/-- A session state with an empty ledger and a filled-in manual form. -/
def wState : AppState :=
  { expenses := []
    notifications := []
    manualAmount := "5"
    manualCategory := "Food & Dining"
    manualNotes := "lunch"
    manualError := ""
    excelPreview := []
    excelError := ""
    extractedData := none
    imageError := "" }

/-- A fully successful agent reply with an empty result payload. -/
def okReply : AgentReply :=
  { success := true, status := "success", message := none, result := {} }

/-- A concrete OCR extraction awaiting confirmation. -/
def imgExtract : ExtractedExpense :=
  { amount := "7", category := "Travel", notes := "", confidence := ⟨85, 75, 80⟩ }

/-- `wState` with an OCR extraction also pending. -/
def wState2 : AppState :=
  { wState with extractedData := some imgExtract }

/-- Two distinct records that share the id `"1000"`. -/
def dupA : Expense :=
  { id := "1000", amount := 5, category := "Shopping", notes := "", date := "d", source := .manual }

/-- Second record with the duplicate id `"1000"`. -/
def dupB : Expense :=
  { id := "1000", amount := 7, category := "Travel", notes := "", date := "d", source := .image,
    confidence := some 80 }

/-- A preview row whose amount field is missing. -/
def zeroItem : RawItem :=
  { category := some "Shopping" }

/-- A session state with that row awaiting spreadsheet confirmation. -/
def previewState : AppState :=
  { wState with excelPreview := [zeroItem] }

/-- A successful upload reply with one asset id. -/
def okUpload : UploadResult :=
  { success := true, asset_ids := ["a1"] }

/-- `wState` with a non-numeric amount field. -/
def nanState : AppState :=
  { wState with manualAmount := "abc" }

/-- `wState` with a zero amount field. -/
def zeroAmountState : AppState :=
  { wState with manualAmount := "0" }

/-- A third record, with an id distinct from `"1000"`. -/
def dupC : Expense :=
  { id := "2000", amount := 3, category := "Other", notes := "", date := "d", source := .excel }

/-- An agent reply whose status is not success. -/
def failReply : AgentReply :=
  { success := true, status := "failed", message := some "boom", result := {} }

/-- An upload-then-agent pipeline failed: the upload threw or was
unsuccessful, or the agent call threw or returned an unsuccessful reply. -/
def pipelineFailed (up : Fetch UploadResult) (call : Fetch AgentReply) : Prop :=
  up = .thrown ∨
  (∃ u, up = .returned u ∧ (u.success = false ∨ u.asset_ids = [])) ∨
  call = .thrown ∨
  (∃ r, call = .returned r ∧ (r.success = false ∨ r.status ≠ "success"))

/-- The manual-entry agent call failed: it threw, or its reply is not a
success. -/
def agentFailed (call : Fetch AgentReply) : Prop :=
  call = .thrown ∨ ∃ r, call = .returned r ∧ (r.success = false ∨ r.status ≠ "success")

/-! ### Helper lemmas -/

theorem foldl_add_amount (l : List Expense) :
    ∀ a : ℚ, l.foldl (fun sum e => sum + e.amount) a = a + (l.map Expense.amount).sum := by
  induction l with
  | nil => intro a; simp
  | cons x xs ih => intro a; simp [ih, add_assoc]

theorem jsOrStr_ne_empty (o : Option String) (d : String) (h : d ≠ "") : jsOrStr o d ≠ "" := by
  cases o with
  | none => simpa [jsOrStr] using h
  | some str =>
      by_cases hs : str = ""
      · simp [jsOrStr, hs]
        exact h
      · simp [jsOrStr, hs]

/-- The ledger after a manual submit: unchanged, or the new record at the
head. -/
theorem handleManualSubmit_expenses (s : AppState) (call : Fetch AgentReply) (now : Nat)
    (nowIso : String) :
    (handleManualSubmit s call now nowIso).expenses = s.expenses ∨
    (handleManualSubmit s call now nowIso).expenses =
      ({ id := toString now, amount := (parseFloat s.manualAmount).getD 0,
         category := s.manualCategory, notes := s.manualNotes, date := nowIso,
         source := Source.manual } : Expense) :: s.expenses := by
  unfold handleManualSubmit
  by_cases hA : ((s.manualAmount == "") || jsLeZero (parseFloat s.manualAmount)) = true
  · simp [hA]
  · simp only [Bool.not_eq_true] at hA
    by_cases hC : (s.manualCategory == "") = true
    · simp [hA, hC]
    · simp only [Bool.not_eq_true] at hC
      cases call with
      | thrown => simp [hA, hC, addNotification]
      | returned r =>
          by_cases hR : (r.success && (r.status == "success")) = true
          · right
            simp [hA, hC, hR, addNotification]
          · simp only [Bool.not_eq_true] at hR
            simp [hA, hC, hR, addNotification]

/-- The ledger after a spreadsheet confirm: unchanged on an empty preview,
otherwise the imported rows prepended. -/
theorem handleExcelConfirm_expenses (s : AppState) (now : Nat) (nowIso : String) :
    (s.excelPreview.length = 0 ∧ (handleExcelConfirm s now nowIso).expenses = s.expenses) ∨
    (handleExcelConfirm s now nowIso).expenses =
      (s.excelPreview.enum.map (fun p => mkExcelExpense now nowIso p.1 p.2)) ++ s.expenses := by
  unfold handleExcelConfirm
  by_cases h : s.excelPreview.length = 0
  · left
    simp [h]
  · right
    simp [h, addNotification]

/-- The ledger after an image confirm: unchanged without an extraction,
otherwise the extracted record at the head. -/
theorem handleImageConfirm_expenses (s : AppState) (now : Nat) (nowIso : String) :
    (s.extractedData = none ∧ (handleImageConfirm s now nowIso).expenses = s.expenses) ∨
    (∃ ex, s.extractedData = some ex ∧
      (handleImageConfirm s now nowIso).expenses =
        ({ id := toString now, amount := (parseFloat ex.amount).getD 0, category := ex.category,
           notes := ex.notes, date := nowIso, source := Source.image,
           confidence := some ex.confidence.overall } : Expense) :: s.expenses) := by
  cases hx : s.extractedData with
  | none =>
      left
      simp [handleImageConfirm, hx]
  | some ex =>
      right
      exact ⟨ex, rfl, by simp [handleImageConfirm, hx, addNotification]⟩

theorem digitChar_toNat : ∀ n < 10, (Nat.digitChar n).toNat - 48 = n := by decide

theorem tenPow_small (n : Nat) (h : n < 10) : tenPow n = 10 := by
  rw [tenPow]
  simp [h]

theorem tenPow_big (n : Nat) (h : ¬ n < 10) : tenPow n = tenPow (n / 10) * 10 := by
  rw [tenPow]
  simp [h]

/-- One unfolding of `Nat.toDigitsCore` at a positive fuel. -/
theorem toDigitsCore_succ (fuel n : Nat) (ds : List Char) :
    Nat.toDigitsCore 10 (fuel + 1) n ds =
      if n / 10 = 0 then (n % 10).digitChar :: ds
      else Nat.toDigitsCore 10 fuel (n / 10) ((n % 10).digitChar :: ds) := rfl

/-- Folding the decimal-digit evaluator over the characters produced by
`Nat.toDigitsCore` recovers the printed number. -/
theorem foldl_toDigitsCore (fuel : Nat) :
    ∀ (n : Nat) (ds : List Char) (a : Nat), n / 10 ^ fuel = 0 →
      (Nat.toDigitsCore 10 (fuel + 1) n ds).foldl (fun x c => x * 10 + (c.toNat - 48)) a =
      ds.foldl (fun x c => x * 10 + (c.toNat - 48)) (a * tenPow n + n) := by
  induction fuel with
  | zero =>
      intro n ds a h
      simp at h
      subst h
      have hd : (Nat.digitChar 0).toNat - 48 = 0 := by decide
      simp [toDigitsCore_succ, tenPow_small, hd]
  | succ fuel ih =>
      intro n ds a h
      rw [toDigitsCore_succ]
      by_cases h10 : n / 10 = 0
      · have hn : n < 10 := by omega
        have hd : (Nat.digitChar (n % 10)).toNat - 48 = n % 10 :=
          digitChar_toNat _ (Nat.mod_lt _ (by omega))
        rw [if_pos h10, List.foldl_cons, hd, tenPow_small n hn, Nat.mod_eq_of_lt hn]
      · have hfuel : n / 10 / 10 ^ fuel = 0 := by
          rw [Nat.div_div_eq_div_mul, ← pow_succ']
          exact h
        rw [if_neg h10, ih (n / 10) (Nat.digitChar (n % 10) :: ds) a hfuel, List.foldl_cons]
        have hd : (Nat.digitChar (n % 10)).toNat - 48 = n % 10 :=
          digitChar_toNat _ (Nat.mod_lt _ (by omega))
        rw [hd, tenPow_big n (by omega), ← mul_assoc]
        congr 1
        omega

/-- Evaluating the decimal digits of `Nat.toDigits 10 n` recovers `n`. -/
theorem digitsVal_toDigits (n : Nat) : digitsVal (Nat.toDigits 10 n) = n := by
  have hlt : n < 10 ^ n := Nat.lt_pow_self (by omega) n
  have h : n / 10 ^ n = 0 := Nat.div_eq_of_lt hlt
  have hfold := foldl_toDigitsCore n n [] 0 h
  simpa [Nat.toDigits, digitsVal] using hfold

/-- Decimal printing of naturals is injective. -/
theorem natToString_inj {m n : Nat} (h : toString m = toString n) : m = n := by
  have h' : (Nat.toDigits 10 m).asString = (Nat.toDigits 10 n).asString := h
  have hd : Nat.toDigits 10 m = Nat.toDigits 10 n := congrArg String.data h'
  have hv := congrArg digitsVal hd
  rwa [digitsVal_toDigits, digitsVal_toDigits] at hv

/-- A fixed prefix plus a printed index is injective in the index. -/
theorem append_natToString_inj (pre : String) {i j : Nat}
    (h : pre ++ toString i = pre ++ toString j) : i = j := by
  have hd := congrArg String.data h
  rw [String.data_append, String.data_append] at hd
  exact natToString_inj (String.ext (List.append_cancel_left hd))

/-- The ids of an imported spreadsheet batch, as printed indices after a
fixed prefix. -/
theorem excel_ids_eq (l : List RawItem) (now : Nat) (nowIso : String) :
    (l.enum.map (fun p => mkExcelExpense now nowIso p.1 p.2)).map Expense.id =
      (l.enum.map Prod.fst).map (fun i => toString now ++ "-" ++ toString i) := by
  rw [List.map_map, List.map_map]
  rfl

/-- The ids minted within one spreadsheet batch are pairwise distinct. -/
theorem excel_ids_nodup (l : List RawItem) (now : Nat) (nowIso : String) :
    ((l.enum.map (fun p => mkExcelExpense now nowIso p.1 p.2)).map Expense.id).Nodup := by
  rw [excel_ids_eq, List.enum_map_fst]
  refine List.Nodup.map ?_ (List.nodup_range _)
  intro i j hij
  exact append_natToString_inj (toString now ++ "-") hij

/-- C1: for every ledger and filter state, the displayed filtered total is
the sum of the amounts of exactly those records that match both the
case-insensitive substring search over notes/category and the exact-match
category filter (`"all"` matching every record). -/
theorem filtered_total_correct (es : List Expense) (q fc : String) :
    totalExpenses es q fc = ((es.filter (matchesFilter q fc)).map Expense.amount).sum ∧
    (∀ e : Expense, e ∈ filteredExpenses es q fc ↔ e ∈ es ∧ SpecMatches q fc e) ∧
    (∀ e : Expense, matchesFilter q fc e = true ↔ SpecMatches q fc e) := by
  have hmatch : ∀ e : Expense, matchesFilter q fc e = true ↔ SpecMatches q fc e := by
    intro e
    simp [matchesFilter, SpecMatches]
  refine ⟨?_, ?_, hmatch⟩
  · simpa [totalExpenses, filteredExpenses] using
      foldl_add_amount (es.filter (matchesFilter q fc)) 0
  · intro e
    simp [filteredExpenses, List.mem_filter, hmatch]

/-- C3: submitting a valid manual expense (the amount field parses to a
positive value, a category is selected, the agent call returns success)
grows the ledger by exactly one record placed at the head, every previous
record remaining present unchanged. -/
theorem manual_submit_adds_one (s : AppState) (r : AgentReply) (now : Nat) (nowIso : String)
    (v : ℚ) (hp : parseFloat s.manualAmount = some v) (hv : 0 < v)
    (hc : s.manualCategory ≠ "") (hs : r.success = true) (hst : r.status = "success") :
    (handleManualSubmit s (.returned r) now nowIso).expenses.length = s.expenses.length + 1 ∧
    (handleManualSubmit s (.returned r) now nowIso).expenses.head? =
      some { id := toString now, amount := v, category := s.manualCategory,
             notes := s.manualNotes, date := nowIso, source := .manual } ∧
    (handleManualSubmit s (.returned r) now nowIso).expenses.tail = s.expenses := by
  have hne : s.manualAmount ≠ "" := by
    intro h
    have hn : parseFloat "" = none := rfl
    rw [h, hn] at hp
    exact Option.noConfusion hp
  have h1 : (s.manualAmount == "") = false := beq_eq_false_iff_ne.mpr hne
  have h2 : jsLeZero (some v) = false := by
    simpa [jsLeZero] using not_le.mpr hv
  have h3 : (s.manualCategory == "") = false := beq_eq_false_iff_ne.mpr hc
  have h4 : (r.success && (r.status == "success")) = true := by simp [hs, hst]
  simp [handleManualSubmit, h1, h2, h3, h4, addNotification, hp]

/-- Witness for C3 at a concrete state and reply. -/
theorem manual_submit_adds_one_witness :
    parseFloat wState.manualAmount = some (5 : ℚ) ∧ (0 : ℚ) < 5 ∧ wState.manualCategory ≠ "" ∧
    okReply.success = true ∧ okReply.status = "success" ∧
    ((handleManualSubmit wState (.returned okReply) 1000 "iso").expenses.length =
        wState.expenses.length + 1 ∧
      (handleManualSubmit wState (.returned okReply) 1000 "iso").expenses.head? =
        some { id := toString 1000, amount := 5, category := wState.manualCategory,
               notes := wState.manualNotes, date := "iso", source := .manual } ∧
      (handleManualSubmit wState (.returned okReply) 1000 "iso").expenses.tail =
        wState.expenses) :=
  ⟨by simp +decide [wState, parseFloat, digitsVal], by norm_num, by decide, rfl, rfl,
    manual_submit_adds_one wState okReply 1000 "iso" 5
      (by simp +decide [wState, parseFloat, digitsVal]) (by norm_num) (by decide) rfl rfl⟩

/-- C7: a spreadsheet confirm with an empty preview, or an image confirm
without an extraction, is an early return: the whole state — in particular
the ledger — is unchanged. -/
theorem empty_confirm_noop (s : AppState) (now : Nat) (nowIso : String) :
    (s.excelPreview = [] → handleExcelConfirm s now nowIso = s) ∧
    (s.extractedData = none → handleImageConfirm s now nowIso = s) := by
  constructor
  · intro h
    simp [handleExcelConfirm, h]
  · intro h
    simp [handleImageConfirm, h]

/-- Witness for C7 at a concrete state. -/
theorem empty_confirm_noop_witness :
    (wState.excelPreview = [] ∧ handleExcelConfirm wState 5 "d" = wState) ∧
    (wState.extractedData = none ∧ handleImageConfirm wState 5 "d" = wState) :=
  ⟨⟨rfl, (empty_confirm_noop wState 5 "d").1 rfl⟩,
    ⟨rfl, (empty_confirm_noop wState 5 "d").2 rfl⟩⟩

/-- C8: a successful spreadsheet round trip whose result payload has
neither an `expenses` array nor an `items` array falls back to exactly one
placeholder candidate — amount 50.00, category Food & Dining — and sets no
error: the degraded case never yields an empty preview. -/
theorem degraded_preview_placeholder (s : AppState) (u : UploadResult) (r : AgentReply)
    (now : Nat) (hu : u.success = true) (hids : u.asset_ids ≠ [])
    (hs : r.success = true) (hst : r.status = "success")
    (he : r.result.expenses = none) (hi : r.result.items = none) :
    (processExcelFile s (.returned u) (.returned r) now).excelPreview = [excelPlaceholder] ∧
    parseOr0 excelPlaceholder.amount = 50 ∧
    jsOrStr excelPlaceholder.category "Other" = "Food & Dining" ∧
    (processExcelFile s (.returned u) (.returned r) now).excelError = "" := by
  have h1 : (!u.success || u.asset_ids.isEmpty) = false := by
    simp [hu, hids]
  have h4 : (r.success && (r.status == "success")) = true := by simp [hs, hst]
  refine ⟨?_, by simp +decide [parseOr0, excelPlaceholder, parseFloat, digitsVal], by decide, ?_⟩ <;>
    simp [processExcelFile, h1, h4, he, hi, addNotification]

/-- Witness for C8 at a concrete state and replies. -/
theorem degraded_preview_placeholder_witness :
    okUpload.success = true ∧ okUpload.asset_ids ≠ [] ∧ okReply.success = true ∧
    okReply.status = "success" ∧ okReply.result.expenses = none ∧
    okReply.result.items = none ∧
    ((processExcelFile wState (.returned okUpload) (.returned okReply) 3).excelPreview =
        [excelPlaceholder] ∧
      parseOr0 excelPlaceholder.amount = 50 ∧
      jsOrStr excelPlaceholder.category "Other" = "Food & Dining" ∧
      (processExcelFile wState (.returned okUpload) (.returned okReply) 3).excelError = "") :=
  ⟨rfl, by decide, rfl, rfl, rfl, rfl,
    degraded_preview_placeholder wState okUpload okReply 3 rfl (by decide) rfl rfl rfl rfl⟩

/-- C4 counterexample: the delete handler filters on `e.id !== id`, so a
ledger holding two records with the same id — reachable, since ids are
minted from `Date.now()` and two commits can share a millisecond — loses
both of them: two records are removed, not at most one. -/
theorem delete_removes_two :
    [dupA, dupB].length = 2 ∧ deleteExpense [dupA, dupB] "1000" = [] := by
  constructor
  · rfl
  · decide

/-- C4 amended: the delete handler removes every record carrying the
target id; when the ledger's ids are unique — so at most one record
matches — it removes exactly the matching record and no other, leaving
the remaining records in their original relative order. -/
theorem delete_spec (l : List Expense) (i : String) (h : (l.map Expense.id).Nodup) :
    ((∀ e ∈ l, e.id ≠ i) → deleteExpense l i = l) ∧
    (∀ l₁ e l₂, l = l₁ ++ e :: l₂ → e.id = i → deleteExpense l i = l₁ ++ l₂) ∧
    (∀ e ∈ deleteExpense l i, e.id ≠ i) := by
  refine ⟨?_, ?_, ?_⟩
  · intro hall
    rw [deleteExpense, List.filter_eq_self]
    intro e he
    simpa using hall e he
  · intro l₁ e l₂ hsplit hid
    subst hsplit
    rw [List.map_append, List.map_cons, List.nodup_append] at h
    obtain ⟨h₁, h₂, hdisj⟩ := h
    rw [List.nodup_cons] at h₂
    have hl₁ : ∀ x ∈ l₁, x.id ≠ i := by
      intro x hx hxi
      exact hdisj (List.mem_map_of_mem Expense.id hx) (by simp [hxi, hid])
    have hl₂ : ∀ x ∈ l₂, x.id ≠ i := by
      intro x hx hxi
      apply h₂.1
      rw [hid, ← hxi]
      exact List.mem_map_of_mem Expense.id hx
    rw [deleteExpense, List.filter_append, List.filter_cons]
    have he : (e.id != i) = false := by simp [hid]
    rw [he]
    rw [List.filter_eq_self.mpr (fun x hx => by simpa using hl₁ x hx),
      List.filter_eq_self.mpr (fun x hx => by simpa using hl₂ x hx)]
    simp
  · intro e he
    have := List.of_mem_filter he
    simpa using this

/-- Witness for the amended C4 at a concrete unique-id ledger. -/
theorem delete_spec_witness :
    ([dupA, dupC].map Expense.id).Nodup ∧ deleteExpense [dupA, dupC] "2000" = [dupA] := by
  refine ⟨by decide, ?_⟩
  have h := (delete_spec [dupA, dupC] "2000" (by decide)).2.1 [dupA] dupC [] rfl rfl
  simpa using h

/-- C5 counterexample: the input `"abc"` has no numeric prefix, so its JS
amount is NaN — not greater than 0 — yet `!manualAmount` is false and
`NaN <= 0` is false, so validation passes: with a successful agent reply
the submission is committed (the ledger grows and no field error is set),
refuting the claim that every submission whose amount is not greater than
0 is rejected before any network call. -/
theorem nan_amount_accepted :
    parseFloat nanState.manualAmount = none ∧
    (handleManualSubmit nanState (.returned okReply) 1000 "iso").expenses.length =
      nanState.expenses.length + 1 ∧
    (handleManualSubmit nanState (.returned okReply) 1000 "iso").manualError = "" := by
  refine ⟨by decide, by decide, by decide⟩

/-- C5 amended: a submission whose amount field is empty or parses to a
nonpositive value, or whose category is empty, is rejected with the
field-level error message before the agent is consulted (the outcome does
not depend on the agent call) and with ledger and notifications unchanged;
a non-numeric amount (JS NaN) is not caught by this validation. -/
theorem manual_validation_rejects (s : AppState) (now : Nat) (nowIso : String)
    (call call' : Fetch AgentReply) :
    ((s.manualAmount = "" ∨ ∃ v, parseFloat s.manualAmount = some v ∧ v ≤ 0) →
      (handleManualSubmit s call now nowIso).expenses = s.expenses ∧
      (handleManualSubmit s call now nowIso).manualError =
        "Please enter a valid amount greater than 0" ∧
      (handleManualSubmit s call now nowIso).notifications = s.notifications ∧
      handleManualSubmit s call now nowIso = handleManualSubmit s call' now nowIso) ∧
    (s.manualAmount ≠ "" → jsLeZero (parseFloat s.manualAmount) = false →
      s.manualCategory = "" →
      (handleManualSubmit s call now nowIso).expenses = s.expenses ∧
      (handleManualSubmit s call now nowIso).manualError = "Please select a category" ∧
      (handleManualSubmit s call now nowIso).notifications = s.notifications ∧
      handleManualSubmit s call now nowIso = handleManualSubmit s call' now nowIso) := by
  constructor
  · rintro (h | ⟨v, hp, hv⟩)
    · have h1 : (s.manualAmount == "") = true := by simp [h]
      simp [handleManualSubmit, h1]
    · have h2 : jsLeZero (parseFloat s.manualAmount) = true := by
        rw [hp]
        simpa [jsLeZero] using hv
      simp [handleManualSubmit, h2]
  · intro h1 h2 h3
    have hb1 : (s.manualAmount == "") = false := beq_eq_false_iff_ne.mpr h1
    have hb3 : (s.manualCategory == "") = true := by simp [h3]
    simp [handleManualSubmit, hb1, h2, hb3]

/-- Witness for the amended C5 at a concrete zero-amount submission. -/
theorem manual_validation_rejects_witness :
    (zeroAmountState.manualAmount = "" ∨
      ∃ v, parseFloat zeroAmountState.manualAmount = some v ∧ v ≤ 0) ∧
    ((handleManualSubmit zeroAmountState .thrown 2 "d").expenses = zeroAmountState.expenses ∧
      (handleManualSubmit zeroAmountState .thrown 2 "d").manualError =
        "Please enter a valid amount greater than 0" ∧
      (handleManualSubmit zeroAmountState .thrown 2 "d").notifications =
        zeroAmountState.notifications ∧
      handleManualSubmit zeroAmountState .thrown 2 "d" =
        handleManualSubmit zeroAmountState (.returned okReply) 2 "d") := by
  have hp : parseFloat zeroAmountState.manualAmount = some 0 := by
    simp +decide [zeroAmountState, wState, parseFloat, digitsVal]
  have hyp : zeroAmountState.manualAmount = "" ∨
      ∃ v, parseFloat zeroAmountState.manualAmount = some v ∧ v ≤ 0 :=
    Or.inr ⟨0, hp, le_refl 0⟩
  exact ⟨hyp,
    (manual_validation_rejects zeroAmountState 2 "d" .thrown (.returned okReply)).1 hyp⟩

/-- C6: on every failure branch of the three capture paths — thrown
network call, failed upload, unsuccessful agent reply — the ledger is left
exactly unchanged and a visible error is produced (an inline error message
and an appended error notification); the two upload pipelines in fact
never touch the ledger on any branch. -/
theorem failure_leaves_ledger_unchanged (s : AppState) (now : Nat) (nowIso : String) :
    (∀ up call, (processExcelFile s up call now).expenses = s.expenses) ∧
    (∀ up call, (processImage s up call now).expenses = s.expenses) ∧
    (∀ up call, pipelineFailed up call →
      (processExcelFile s up call now).excelError ≠ "" ∧
      ∃ m, (processExcelFile s up call now).notifications =
        s.notifications ++ [{ type := .error, message := m, id := toString now }]) ∧
    (∀ up call, pipelineFailed up call →
      (processImage s up call now).imageError ≠ "" ∧
      ∃ m, (processImage s up call now).notifications =
        s.notifications ++ [{ type := .error, message := m, id := toString now }]) ∧
    (∀ call, agentFailed call → s.manualAmount ≠ "" →
      jsLeZero (parseFloat s.manualAmount) = false → s.manualCategory ≠ "" →
      (handleManualSubmit s call now nowIso).expenses = s.expenses ∧
      (handleManualSubmit s call now nowIso).manualError ≠ "" ∧
      ∃ m, (handleManualSubmit s call now nowIso).notifications =
        s.notifications ++ [{ type := .error, message := m, id := toString now }]) := by
  refine ⟨?_, ?_, ?_, ?_, ?_⟩
  · intro up call
    cases up with
    | thrown => simp [processExcelFile, addNotification]
    | returned u =>
        cases hu : (!u.success || u.asset_ids.isEmpty) with
        | true => simp [processExcelFile, hu, addNotification]
        | false =>
            cases call with
            | thrown => simp [processExcelFile, hu, addNotification]
            | returned r =>
                cases hr : (r.success && (r.status == "success")) with
                | true => simp [processExcelFile, hu, hr, addNotification]
                | false => simp [processExcelFile, hu, hr, addNotification]
  · intro up call
    cases up with
    | thrown => simp [processImage, addNotification]
    | returned u =>
        cases hu : (!u.success || u.asset_ids.isEmpty) with
        | true => simp [processImage, hu, addNotification]
        | false =>
            cases call with
            | thrown => simp [processImage, hu, addNotification]
            | returned r =>
                cases hr : (r.success && (r.status == "success")) with
                | true => simp [processImage, hu, hr, addNotification]
                | false => simp [processImage, hu, hr, addNotification]
  · intro up call hf
    cases up with
    | thrown =>
        exact ⟨by simp [processExcelFile, addNotification], "Processing error",
          by simp [processExcelFile, addNotification]⟩
    | returned u =>
        cases hu : (!u.success || u.asset_ids.isEmpty) with
        | true =>
            exact ⟨by simp [processExcelFile, hu, addNotification], "File upload failed",
              by simp [processExcelFile, hu, addNotification]⟩
        | false =>
            cases call with
            | thrown =>
                exact ⟨by simp [processExcelFile, hu, addNotification], "Processing error",
                  by simp [processExcelFile, hu, addNotification]⟩
            | returned r =>
                have hr : (r.success && (r.status == "success")) = false := by
                  rcases hf with h | ⟨u', hu', hfail⟩ | h | ⟨r', hr', hfail⟩
                  · exact absurd h (by simp)
                  · injection hu' with h'
                    subst h'
                    rcases hfail with h | h <;> simp [h] at hu
                  · exact absurd h (by simp)
                  · injection hr' with h'
                    subst h'
                    rcases hfail with h | h
                    · simp [h]
                    · simp [beq_eq_false_iff_ne.mpr h]
                refine ⟨?_, "Failed to process file",
                  by simp [processExcelFile, hu, hr, addNotification]⟩
                simp [processExcelFile, hu, hr, addNotification]
                exact jsOrStr_ne_empty _ _ (by decide)
  · intro up call hf
    cases up with
    | thrown =>
        exact ⟨by simp [processImage, addNotification], "Processing error",
          by simp [processImage, addNotification]⟩
    | returned u =>
        cases hu : (!u.success || u.asset_ids.isEmpty) with
        | true =>
            exact ⟨by simp [processImage, hu, addNotification], "Image upload failed",
              by simp [processImage, hu, addNotification]⟩
        | false =>
            cases call with
            | thrown =>
                exact ⟨by simp [processImage, hu, addNotification], "Processing error",
                  by simp [processImage, hu, addNotification]⟩
            | returned r =>
                have hr : (r.success && (r.status == "success")) = false := by
                  rcases hf with h | ⟨u', hu', hfail⟩ | h | ⟨r', hr', hfail⟩
                  · exact absurd h (by simp)
                  · injection hu' with h'
                    subst h'
                    rcases hfail with h | h <;> simp [h] at hu
                  · exact absurd h (by simp)
                  · injection hr' with h'
                    subst h'
                    rcases hfail with h | h
                    · simp [h]
                    · simp [beq_eq_false_iff_ne.mpr h]
                refine ⟨?_, "OCR extraction failed",
                  by simp [processImage, hu, hr, addNotification]⟩
                simp [processImage, hu, hr, addNotification]
                exact jsOrStr_ne_empty _ _ (by decide)
  · intro call hf h1 h2 h3
    have hb1 : (s.manualAmount == "") = false := beq_eq_false_iff_ne.mpr h1
    have hb3 : (s.manualCategory == "") = false := beq_eq_false_iff_ne.mpr h3
    cases call with
    | thrown =>
        refine ⟨by simp [handleManualSubmit, hb1, h2, hb3, addNotification],
          by simp [handleManualSubmit, hb1, h2, hb3, addNotification],
          "An error occurred", by simp [handleManualSubmit, hb1, h2, hb3, addNotification]⟩
    | returned r =>
        have hr : (r.success && (r.status == "success")) = false := by
          rcases hf with h | ⟨r', hr', hfail⟩
          · exact absurd h (by simp)
          · injection hr' with h'
            subst h'
            rcases hfail with h | h
            · simp [h]
            · simp [beq_eq_false_iff_ne.mpr h]
        refine ⟨by simp [handleManualSubmit, hb1, h2, hb3, hr, addNotification], ?_,
          "Failed to add expense",
          by simp [handleManualSubmit, hb1, h2, hb3, hr, addNotification]⟩
        simp [handleManualSubmit, hb1, h2, hb3, hr, addNotification]
        exact jsOrStr_ne_empty _ _ (by decide)

/-- Witness for C6 at a concrete state, a thrown upload and an
unsuccessful agent reply. -/
theorem failure_leaves_ledger_unchanged_witness :
    pipelineFailed (Fetch.thrown : Fetch UploadResult) (.returned okReply) ∧
    agentFailed (.returned failReply) ∧ wState.manualAmount ≠ "" ∧
    jsLeZero (parseFloat wState.manualAmount) = false ∧ wState.manualCategory ≠ "" ∧
    (processExcelFile wState .thrown (.returned okReply) 4).expenses = wState.expenses ∧
    (processExcelFile wState .thrown (.returned okReply) 4).excelError ≠ "" ∧
    (handleManualSubmit wState (.returned failReply) 4 "d").expenses = wState.expenses ∧
    (handleManualSubmit wState (.returned failReply) 4 "d").manualError ≠ "" := by
  have hpf : pipelineFailed (Fetch.thrown : Fetch UploadResult) (.returned okReply) := Or.inl rfl
  have haf : agentFailed (.returned failReply) := Or.inr ⟨failReply, rfl, Or.inr (by decide)⟩
  have hp : parseFloat wState.manualAmount = some 5 := by
    simp +decide [wState, parseFloat, digitsVal]
  have h2 : jsLeZero (parseFloat wState.manualAmount) = false := by
    rw [hp]
    simp [jsLeZero]
  have h := failure_leaves_ledger_unchanged wState 4 "d"
  refine ⟨hpf, haf, by decide, h2, by decide, h.1 .thrown (.returned okReply),
    (h.2.2.1 .thrown (.returned okReply) hpf).1, ?_, ?_⟩
  · exact (h.2.2.2.2 (.returned failReply) haf (by decide) h2 (by decide)).1
  · exact (h.2.2.2.2 (.returned failReply) haf (by decide) h2 (by decide)).2.1

/-- C9 counterexample: ids are minted from `Date.now()`, so a manual add
and an image confirm that land in the same millisecond (`now = 1000`)
produce two ledger records with the identical id `"1000"` — the invariant
that no two records share an id is not preserved.  The starting state
(empty ledger, filled-in manual form, pending OCR extraction) is reachable
by a successful `processImage` followed by typing into the manual tab. -/
theorem same_ms_duplicate_ids :
    ((handleImageConfirm (handleManualSubmit wState2 (.returned okReply) 1000 "iso") 1000
        "iso").expenses.map Expense.id) = ["1000", "1000"] ∧
    ¬ (((handleImageConfirm (handleManualSubmit wState2 (.returned okReply) 1000 "iso") 1000
        "iso").expenses.map Expense.id).Nodup) := by
  have hp : parseFloat "5" = some 5 := by
    simp +decide [parseFloat, digitsVal]
  have h2 : jsLeZero (parseFloat "5") = false := by
    rw [hp]
    simp [jsLeZero]
  constructor
  · simp +decide [handleManualSubmit, handleImageConfirm, h2, wState2, wState, okReply,
      imgExtract, addNotification]
  · simp +decide [handleManualSubmit, handleImageConfirm, h2, wState2, wState, okReply,
      imgExtract, addNotification]

/-- C9 amended: each append preserves uniqueness of ids provided the
freshly minted timestamp-derived ids do not already occur in the ledger —
`toString now` for the manual and image paths, the batch ids
`now-index` (pairwise distinct by construction) for the spreadsheet path.
Two commits in the same millisecond can break the proviso, as the
counterexample shows. -/
theorem appends_preserve_unique_ids (s : AppState) (now : Nat) (nowIso : String)
    (h : (s.expenses.map Expense.id).Nodup) :
    (∀ call, toString now ∉ s.expenses.map Expense.id →
      ((handleManualSubmit s call now nowIso).expenses.map Expense.id).Nodup) ∧
    (toString now ∉ s.expenses.map Expense.id →
      ((handleImageConfirm s now nowIso).expenses.map Expense.id).Nodup) ∧
    ((∀ i : Nat, (toString now ++ "-" ++ toString i) ∉ s.expenses.map Expense.id) →
      ((handleExcelConfirm s now nowIso).expenses.map Expense.id).Nodup) := by
  refine ⟨?_, ?_, ?_⟩
  · intro call hfresh
    rcases handleManualSubmit_expenses s call now nowIso with hc | hc <;> rw [hc]
    · exact h
    · rw [List.map_cons]
      exact List.nodup_cons.mpr ⟨by simpa using hfresh, h⟩
  · intro hfresh
    rcases handleImageConfirm_expenses s now nowIso with ⟨_, hc⟩ | ⟨ex, _, hc⟩ <;> rw [hc]
    · exact h
    · rw [List.map_cons]
      exact List.nodup_cons.mpr ⟨by simpa using hfresh, h⟩
  · intro hfresh
    rcases handleExcelConfirm_expenses s now nowIso with ⟨_, hc⟩ | hc <;> rw [hc]
    · exact h
    · rw [List.map_append, List.nodup_append]
      refine ⟨excel_ids_nodup _ _ _, h, ?_⟩
      intro x hx
      rw [List.map_map] at hx
      obtain ⟨p, hp, rfl⟩ := List.mem_map.mp hx
      exact hfresh p.1

/-- Witness for the amended C9 at a concrete state with fresh ids. -/
theorem appends_preserve_unique_ids_witness :
    (previewState.expenses.map Expense.id).Nodup ∧
    ((handleManualSubmit previewState (.returned okReply) 1000 "iso").expenses.map
        Expense.id).Nodup ∧
    ((handleImageConfirm previewState 1000 "iso").expenses.map Expense.id).Nodup ∧
    ((handleExcelConfirm previewState 1000 "iso").expenses.map Expense.id).Nodup := by
  have h : (previewState.expenses.map Expense.id).Nodup := by decide
  have hw := appends_preserve_unique_ids previewState 1000 "iso" h
  exact ⟨h, hw.1 (.returned okReply) (by decide), hw.2.1 (by decide),
    hw.2.2 (fun i => by simp [previewState, wState])⟩

/-- C10 counterexample: confirming a spreadsheet preview whose single row
has no parseable amount commits a record with amount 0 — the fallback
`parseFloat(item.amount) || 0` — so not every ledger record has a strictly
positive amount. -/
theorem excel_confirm_zero_amount :
    (handleExcelConfirm previewState 1000 "iso").expenses.map Expense.amount = [0] ∧
    ¬ ∀ e ∈ (handleExcelConfirm previewState 1000 "iso").expenses, 0 < e.amount := by
  constructor
  · decide
  · decide

/-- C10 amended: a ledger of positive-amount records stays positive under
a manual submit whenever the amount field parses to a positive value, and
under a spreadsheet/image confirm whenever the committed parse-or-0
amounts are positive; the adapters only guarantee the committed amount
equals `parseFloat(·) || 0`, which is 0 — not positive — when the
candidate amount fails to parse. -/
theorem positive_amounts_conditional (s : AppState) (now : Nat) (nowIso : String)
    (hprev : ∀ e ∈ s.expenses, 0 < e.amount) :
    (∀ call v, parseFloat s.manualAmount = some v → 0 < v →
      ∀ e ∈ (handleManualSubmit s call now nowIso).expenses, 0 < e.amount) ∧
    ((∀ it ∈ s.excelPreview, 0 < parseOr0 it.amount) →
      ∀ e ∈ (handleExcelConfirm s now nowIso).expenses, 0 < e.amount) ∧
    (∀ ex, s.extractedData = some ex → 0 < (parseFloat ex.amount).getD 0 →
      ∀ e ∈ (handleImageConfirm s now nowIso).expenses, 0 < e.amount) := by
  refine ⟨?_, ?_, ?_⟩
  · intro call v hp hv e he
    rcases handleManualSubmit_expenses s call now nowIso with hc | hc
    · exact hprev e (hc ▸ he)
    · rw [hc] at he
      rcases List.mem_cons.mp he with rfl | hmem
      · simpa [hp] using hv
      · exact hprev e hmem
  · intro hpos e he
    rcases handleExcelConfirm_expenses s now nowIso with ⟨_, hc⟩ | hc
    · exact hprev e (hc ▸ he)
    · rw [hc] at he
      rcases List.mem_append.mp he with hmem | hmem
      · obtain ⟨p, hp, rfl⟩ := List.mem_map.mp hmem
        have hsnd : p.2 ∈ s.excelPreview := List.snd_mem_of_mem_enum hp
        simpa [mkExcelExpense] using hpos p.2 hsnd
      · exact hprev e hmem
  · intro ex hex hv e he
    rcases handleImageConfirm_expenses s now nowIso with ⟨hn, _⟩ | ⟨ex', hex', hc⟩
    · rw [hn] at hex
      exact Option.noConfusion hex
    · rw [hex] at hex'
      injection hex' with h'
      subst h'
      rw [hc] at he
      rcases List.mem_cons.mp he with rfl | hmem
      · simpa using hv
      · exact hprev e hmem

/-- Witness for the amended C10 at a concrete positive submission. -/
theorem positive_amounts_conditional_witness :
    (∀ e ∈ wState.expenses, 0 < e.amount) ∧
    parseFloat wState.manualAmount = some 5 ∧ (0 : ℚ) < 5 ∧
    (∀ e ∈ (handleManualSubmit wState (.returned okReply) 6 "d").expenses, 0 < e.amount) := by
  have hprev : ∀ e ∈ wState.expenses, 0 < e.amount := by
    intro e he
    simp [wState] at he
  have hp : parseFloat wState.manualAmount = some 5 := by
    simp +decide [wState, parseFloat, digitsVal]
  exact ⟨hprev, hp, by norm_num,
    (positive_amounts_conditional wState 6 "d" hprev).1 (.returned okReply) 5 hp (by norm_num)⟩

end ExpenseTracker
